import Mathlib

/-!
Shallow embedding of the `pulse` monitoring daemon (Rust), covering the
broadcast pipeline (src/services/broadcast.rs, src/services/broadcast/events.rs),
the scheduler (src/services/scheduler.rs), the system monitor
(src/services/system.rs) and the twitter buffer (src/services/twitter.rs).

Machine integers are modelled as `Nat`; `std::time::Instant` values are `Nat`
instants of a monotonic clock and `std::time::Duration` values are `Nat`
durations on the same scale.  IEEE binary64 values are modelled by `F64`
below.  External collaborators (the cron crate, the mount probe, the SMTP
transport, the database) appear as oracle parameters, exactly at the
boundaries where the source calls into them.
-/

namespace Pulse

/-- Model of the IEEE binary64 values arising in this program: either NaN,
infinity, or an exact (rational) value.  All numerators produced by the
program are `u64` casts, which are exact for the magnitudes the claims use.
Division by a zero value yields NaN for a zero numerator and infinity
otherwise, as in IEEE 754; NaN absorbs through arithmetic. -/
inductive F64 where
  | nan : F64
  | inf : F64
  | val : ℚ → F64
deriving DecidableEq, Repr

/-- IEEE binary64 division on the model (nonnegative operands, as produced by
u64 casts in this program). -/
def F64.div : F64 → F64 → F64
  | .nan, _ => .nan
  | _, .nan => .nan
  | .inf, .inf => .nan
  | .inf, .val _ => .inf
  | .val _, .inf => .val 0
  | .val a, .val b =>
    if b = 0 then (if a = 0 then .nan else .inf) else .val (a / b)

/-- IEEE binary64 multiplication on the model (nonnegative operands). -/
def F64.mul : F64 → F64 → F64
  | .nan, _ => .nan
  | _, .nan => .nan
  | .inf, .inf => .inf
  | .inf, .val b => if b = 0 then .nan else .inf
  | .val a, .inf => if a = 0 then .nan else .inf
  | .val a, .val b => .val (a * b)

/-- Modelled from the spec: human-readable rendering of a float into message
bodies (Rust format! with a {:.2} specifier); the exact digit formatting is
collaborator-level and no claim depends on it. -/
def F64.render : F64 → String
  | .nan => "NaN"
  | .inf => "inf"
  | .val q => toString q

/- ---------------------------------------------------------------------
Broadcast events: src/services/broadcast/events.rs
--------------------------------------------------------------------- -/

/-- News article as assembled by the news service (src/services/news.rs);
only the fields used by event rendering are kept. -/
structure Article where
  title : String
  published_date : String
  url : String
  abstr : String
deriving DecidableEq, Repr

/-- Section of a newscast (src/services/news.rs ArticleSection). -/
structure ArticleSection where
  section_title : String
  articles : List Article
deriving DecidableEq, Repr

/-- Persisted tweet row (src/db/models.rs Tweet); only the text field is
kept, the remaining payload fields play no role in any claim. -/
structure Tweet where
  text : String
deriving DecidableEq, Repr

/-- BroadcastEventType from src/services/broadcast/events.rs. -/
inductive BroadcastEventType where
  | HighDiskUsage : BroadcastEventType
  | Newscast : BroadcastEventType
  | TwitterAlert : BroadcastEventType
deriving DecidableEq, Repr

/-- serde_json::to_string of a BroadcastEventType under
serde(rename_all = "kebab-case"): the JSON string literal, quotation marks
included. -/
def BroadcastEventType.toJson : BroadcastEventType → String
  | .HighDiskUsage => "\"high-disk-usage\""
  | .Newscast => "\"newscast\""
  | .TwitterAlert => "\"twitter-alert\""

/-- BroadcastEvent from src/services/broadcast/events.rs. -/
inductive BroadcastEvent where
  | HighDiskUsage (filesystem_mount : String) (current_usage : F64) (max_usage : F64)
  | TwitterAlert (group_name : String) (current_count : Int) (max_count : Int) (tweets : List Tweet)
  | Newscast (new_york_times : List ArticleSection)
deriving DecidableEq, Repr

/-- event_type from src/services/broadcast/events.rs lines 123-133. -/
def BroadcastEvent.event_type : BroadcastEvent → BroadcastEventType
  | .HighDiskUsage _ _ _ => .HighDiskUsage
  | .Newscast _ => .Newscast
  | .TwitterAlert _ _ _ _ => .TwitterAlert

/-- event_key from src/services/broadcast/events.rs lines 136-150: the
serialized event type, with the filesystem mount appended for HighDiskUsage;
Newscast and TwitterAlert use the serialized type alone (the TwitterAlert
group name is not part of the key). -/
def BroadcastEvent.event_key : BroadcastEvent → String
  | e@(.HighDiskUsage m _ _) => e.event_type.toJson ++ m
  | e@(.Newscast _) => e.event_type.toJson
  | e@(.TwitterAlert _ _ _ _) => e.event_type.toJson

/-- Modelled from the spec: the HTML body of a newscast email; the HTML
templates live in resources/email/news which is not part of the sources, so
the rendering keeps the section titles and article fields in order.  No
claim depends on body text. -/
def renderNewscastBody (sections : List ArticleSection) : String :=
  String.intercalate "<br>" (sections.map (fun sec =>
    sec.section_title ++
      String.intercalate "<br>" (sec.articles.map (fun a =>
        a.title ++ " " ++ a.published_date ++ " " ++ a.url ++ " " ++ a.abstr))))

/-- subject_and_body from src/services/broadcast/events.rs lines 41-121.
Subjects are exact; bodies involve collaborator-level float and debug
formatting, rendered through `F64.render` and plain concatenation. -/
def BroadcastEvent.subject_and_body : BroadcastEvent → String × String
  | .HighDiskUsage filesystem_mount current_usage max_usage =>
    ("High Disk Usage",
      "Filesystem mounted at " ++ filesystem_mount ++ " has " ++
        current_usage.render ++ "% disk usage, which is above the max of " ++
        max_usage.render)
  | .TwitterAlert group_name current_count max_count tweets =>
    ("Twitter Alert: " ++ group_name,
      "Group " ++ group_name ++ " had a spike of " ++ toString current_count ++
        " tweets, which exceeds the max of " ++ toString max_count ++ "\n\n" ++
        String.intercalate "\n" (tweets.map (fun t => t.text)))
  | .Newscast new_york_times =>
    ("News", renderNewscastBody new_york_times)

/- ---------------------------------------------------------------------
Alert configuration: src/config.rs
--------------------------------------------------------------------- -/

/-- AlertType from src/config.rs. -/
inductive AlertType where
  | Digest : AlertType
  | Alarm : AlertType
deriving DecidableEq, Repr

/-- BroadcastMedium from src/services/broadcast/events.rs. -/
inductive BroadcastMedium where
  | Email : BroadcastMedium
deriving DecidableEq, Repr

/-- AlertConfig from src/config.rs; alert_interval is a Duration on the
monotonic clock scale. -/
structure AlertConfig where
  alert_interval : Option Nat
  event : BroadcastEventType
  mediums : List BroadcastMedium
  alert_type : AlertType
deriving DecidableEq, Repr

/- ---------------------------------------------------------------------
Broadcaster: src/services/broadcast.rs
--------------------------------------------------------------------- -/

/-- The LAST_ALERTED map (HashMap<BroadcastEventKey, Instant>), modelled as
an association list whose lookup takes the most recent binding; insertion is
cons, which matches HashMap::insert with respect to lookup.  The map starts
empty at process start. -/
abbrev LastAlerted : Type := List (String × Nat)

/-- HashMap::get on the LAST_ALERTED model. -/
def laGet : LastAlerted → String → Option Nat
  | [], _ => none
  | (k', v) :: rest, k => if k' = k then some v else laGet rest k

/-- HashMap::insert on the LAST_ALERTED model. -/
def laInsert (la : LastAlerted) (k : String) (v : Nat) : LastAlerted :=
  (k, v) :: la

/-- The alert guard of Broadcast::started (broadcast.rs lines 105-114):
alert when the rule has no interval, or the key was never alerted, or
strictly more than the interval elapsed since the recorded instant.
Instant subtraction (duration_since) is truncated Nat subtraction; the
unwrap of alert_interval inside the closure is reached only when the
interval is present, so getD is exact. -/
def sendNow (cfg : AlertConfig) (last : Option Nat) (now : Nat) : Bool :=
  cfg.alert_interval.isNone ||
    (match last with
     | some instant => decide (now - instant > cfg.alert_interval.getD 0)
     | none => true)

/-- The subject prefix choice of Broadcast::started (broadcast.rs
lines 117-121). -/
def alertMarker (last : Option Nat) (ty : AlertType) : String :=
  if last.isNone || ty = AlertType.Digest then "[PULSE]" else "[PULSE] Retriggered:"

/-- One call handed to the email port: subject and body of send_email. -/
structure Email where
  subject : String
  body : String
deriving DecidableEq, Repr

/-- The medium loop of Broadcast::started (broadcast.rs lines 124-135).
The email port's outcome is the oracle `emailOk`; send_email's Result is
mapped to () and unwrapped, so an Err panics the tick: the returned flag
records the panic, and the list records every call handed to the port (the
failing call included, later mediums not attempted). -/
def sendMediums (emailOk : String → String → Bool) :
    List BroadcastMedium → String → String → List Email × Bool
  | [], _, _ => ([], false)
  | .Email :: rest, subject, body =>
    if emailOk subject body then
      let r := sendMediums emailOk rest subject body
      (⟨subject, body⟩ :: r.1, r.2)
    else ([⟨subject, body⟩], true)

/-- One popped event together with the monotonic instants of its
processing: tCheck is the Instant::now() of the guard (line 111), tSend the
instant of delivery, tRecord the Instant::now() recorded into LAST_ALERTED
(line 142); tCheck ≤ tSend ≤ tRecord. -/
structure Arrival where
  event : BroadcastEvent
  tCheck : Nat
  tSend : Nat
  tRecord : Nat
deriving DecidableEq, Repr

/-- Trace record of one guard-passing delivery: the event, its key, the
LAST_ALERTED entry observed at send time, the rule used, and the subject
line handed to the email port. -/
structure SendRec where
  key : String
  tSend : Nat
  event : BroadcastEvent
  lastAtSend : Option Nat
  cfg : AlertConfig
  subjectLine : String
deriving DecidableEq, Repr

/-- Result of processing drained events: the LAST_ALERTED map, the sends
performed, the email-port calls, and whether an unwrap panic terminated the
drain. -/
structure StepResult where
  la : LastAlerted
  sends : List SendRec
  emails : List Email
  panicked : Bool
deriving DecidableEq, Repr

/-- Processing of a single popped event by the tick closure of
Broadcast::started (broadcast.rs lines 93-151).  The alerts map is the
immutable rules mapping (the re-insert of the identical alert_config at
lines 136-139 has no effect on it).  On a send, LAST_ALERTED receives the
record instant only if no email unwrap panicked first (the insert at
lines 140-143 sits after the medium loop). -/
def processArrival (emailOk : String → String → Bool)
    (alerts : BroadcastEventType → Option AlertConfig)
    (la : LastAlerted) (a : Arrival) : StepResult :=
  let key := a.event.event_key
  let last := laGet la key
  match alerts a.event.event_type with
  | some cfg =>
    if sendNow cfg last a.tCheck then
      let pfx := alertMarker last cfg.alert_type
      let sb := a.event.subject_and_body
      let subjectLine := pfx ++ " " ++ sb.1
      let sent := sendMediums emailOk cfg.mediums subjectLine sb.2
      let sr : SendRec := ⟨key, a.tSend, a.event, last, cfg, subjectLine⟩
      if sent.2 then ⟨la, [sr], sent.1, true⟩
      else ⟨laInsert la key a.tRecord, [sr], sent.1, false⟩
    else ⟨la, [], [], false⟩
  | none => ⟨la, [], [], false⟩

/-- The while-let drain loop of Broadcast::started (broadcast.rs line 93):
events are popped until the outbox yields none; a panic inside an iteration
terminates the loop with the remaining arrivals unprocessed. -/
def drainEvents (emailOk : String → String → Bool)
    (alerts : BroadcastEventType → Option AlertConfig) :
    LastAlerted → List Arrival → StepResult
  | la, [] => ⟨la, [], [], false⟩
  | la, a :: rest =>
    let r := processArrival emailOk alerts la a
    if r.panicked then r
    else
      let rr := drainEvents emailOk alerts r.la rest
      ⟨rr.la, r.sends ++ rr.sends, r.emails ++ rr.emails, rr.panicked⟩

/- ---------------------------------------------------------------------
Scheduler: src/services/scheduler.rs
--------------------------------------------------------------------- -/

/-- ScheduleMessage from src/services/messages.rs. -/
inductive ScheduleMessage where
  | CheckDiskUsage : ScheduleMessage
  | FetchNews : ScheduleMessage
deriving DecidableEq, Repr

/-- serde_json::to_string of a ScheduleMessage under
serde(rename_all = "kebab-case"). -/
def ScheduleMessage.toJson : ScheduleMessage → String
  | .CheckDiskUsage => "\"check-disk-usage\""
  | .FetchNews => "\"fetch-news\""

/-- ScheduleConfig from src/config.rs. -/
structure ScheduleConfig where
  cron : Option String
  message : ScheduleMessage
deriving DecidableEq, Repr

/-- Observable actions of one scheduler interval closure: the database
insert of the serialized message (scheduler.rs lines 68-78) and the do_send
dispatch to one registered service (lines 80-82).  Failures of either are
logged with the action still attempted, so both always appear. -/
inductive SchedAction where
  | insertTaskRecord (task : String)
  | dispatch (svc : Nat) (msg : ScheduleMessage)
deriving DecidableEq, Repr

/-- One tick of the interval closure that Scheduler::started registers for
a (schedule, service) pair (scheduler.rs lines 56-83).  The cron crate and
chrono are collaborators: `parseCron` is CronSchedule::from_str().ok(), and
a parsed schedule is the oracle deciding, per tick, whether the due window
check (one_tick_before <= now <= next_date) passes.  The stored value is
schedule.cron.and_then(parse): an absent cron and a cron that fails to
parse are indistinguishable here, and both fall through to the firing code
on every tick. -/
def closureDue (parseCron : String → Option (Nat → Bool))
    (sc : ScheduleConfig) (t : Nat) : Bool :=
  match sc.cron.bind parseCron with
  | some due => due t
  | none => true

/-- Actions of one run of the interval closure at tick t: when the due
check does not bail out, the serialized message is inserted and the message
dispatched to the closure's service (scheduler.rs lines 56-83). -/
def closureFire (parseCron : String → Option (Nat → Bool))
    (sc : ScheduleConfig) (svc : Nat) (t : Nat) : List SchedAction :=
  if closureDue parseCron sc t then
    [.insertTaskRecord sc.message.toJson, .dispatch svc sc.message]
  else []

/-- All actions of one scheduler tick: Scheduler::started registers one
interval closure per (schedule, service) pair, iterating schedules in the
outer loop and services in the inner loop (scheduler.rs lines 45-85); the
closures share the tick period, so on a tick each runs once in registration
order. -/
def schedulerTick (parseCron : String → Option (Nat → Bool))
    (schedules : List ScheduleConfig) (services : List Nat) (t : Nat) :
    List SchedAction :=
  schedules.flatMap (fun sc => services.flatMap (fun svc => closureFire parseCron sc svc t))

/-- Actions over the first n scheduler ticks. -/
def schedulerRun (parseCron : String → Option (Nat → Bool))
    (schedules : List ScheduleConfig) (services : List Nat) (n : Nat) :
    List SchedAction :=
  (List.range n).flatMap (schedulerTick parseCron schedules services)

/-- Number of task-record inserts among scheduler actions. -/
def countInserts (as : List SchedAction) : Nat :=
  (as.filter (fun a => match a with | .insertTaskRecord _ => true | _ => false)).length

/-- Number of dispatches to a given service among scheduler actions. -/
def countDispatchTo (svc : Nat) (as : List SchedAction) : Nat :=
  (as.filter (fun a => match a with | .dispatch s _ => s = svc | _ => false)).length

/-- Number of ticks in the first n at which the closure for a schedule
fires (its cron parsed and due, or no parsed cron). -/
def dueCount (parseCron : String → Option (Nat → Bool)) (sc : ScheduleConfig)
    (n : Nat) : Nat :=
  ((List.range n).filter (closureDue parseCron sc)).length

/- ---------------------------------------------------------------------
SystemMonitor: src/services/system.rs
--------------------------------------------------------------------- -/

/-- std::path::PathBuf as used for mounts: a path that may or may not be
valid unicode; to_str yields the text only when it is. -/
structure PathBuf where
  valid_unicode : Bool
  text : String
deriving DecidableEq, Repr

/-- PathBuf::to_str. -/
def PathBuf.to_str (p : PathBuf) : Option String :=
  if p.valid_unicode then some p.text else none

/-- FilesystemConfig from src/config.rs (the threshold is an f32 value). -/
structure FilesystemConfig where
  mount : PathBuf
  available_space_alert_above : F64
deriving DecidableEq, Repr

/-- systemstat::Filesystem as produced by System::mount_at: total and
available bytes (u64) and the mounted-on path. -/
structure Filesystem where
  total : Nat
  avail : Nat
  fs_mounted_on : String
deriving DecidableEq, Repr

/-- Error kinds reaching the system monitor paths (src/error.rs). -/
inductive SysError where
  | invalidUnicodePath (path : PathBuf)
  | probeError (msg : String)
  | dbQueryError (msg : String)
  | actixSendError (msg : String)
  | outboxFull
deriving DecidableEq, Repr

/-- Observable actions of a system-monitor pass over one filesystem. -/
inductive SysAction where
  | recordDiskUsage (mount : String) (percent_disk_used : F64)
  | notifySubscriber (id : Nat) (mount : String) (percent_disk_used : F64)
  | pushAlert (event : BroadcastEvent)
deriving DecidableEq, Repr

/-- Ports and collaborators of the system monitor, as oracles: the mount
probe (System::mount_at), the database insert outcome, the per-subscriber
do_send outcome, and the outbox push outcome (full or not). -/
structure SysPorts where
  mount_at : String → Except String Filesystem
  recordOk : String → F64 → Bool
  subscriberOk : Nat → Bool
  pushOk : BroadcastEvent → Bool

/-- get_mount from src/services/system.rs lines 88-99: to_str, else
InvalidUnicodePath; then the probe, whose error maps into the unified
error. -/
def get_mount (ports : SysPorts) (fc : FilesystemConfig) : Except SysError Filesystem :=
  match fc.mount.to_str with
  | none => .error (.invalidUnicodePath fc.mount)
  | some path =>
    match ports.mount_at path with
    | .error e => .error (.probeError e)
    | .ok fs => .ok fs

/-- The percent computation of check_filesystem_usage (system.rs
lines 115-119): ((total - avail) as f64 / total as f64) * 100.  The u64
subtraction is truncated (the probe reports avail ≤ total); there is no
guard on total = 0. -/
def percentDiskUsage (total avail : Nat) : F64 :=
  F64.mul (F64.div (F64.val ((total - avail : Nat) : ℚ)) (F64.val (total : ℚ))) (F64.val 100)

/-- check_filesystem_usage from src/services/system.rs lines 109-159: probe
the mount, compute and record the usage, fan out to every subscriber, then
push a HighDiskUsage event if the threshold is exceeded.  The stages are an
and_then chain, so the first error aborts the rest of the chain; the
returned list holds the actions performed before any failure, and the
option the error if one occurred.  Subscriber fan-out is itself a
collect::<Result>, stopping at the first failing subscriber.  The threshold
comparison current > threshold on floats is false when either side is NaN. -/
def f64gt : F64 → F64 → Bool
  | .nan, _ => false
  | _, .nan => false
  | .inf, .inf => false
  | .inf, .val _ => true
  | .val _, .inf => false
  | .val a, .val b => decide (a > b)

/-- Fan-out stage: deliver the record to subscribers in order, stopping at
the first do_send error (system.rs lines 130-141). -/
def notifySubscribers (ports : SysPorts) (subs : List Nat) (mount : String)
    (pct : F64) : List SysAction × Option SysError :=
  match subs with
  | [] => ([], none)
  | s :: rest =>
    if ports.subscriberOk s then
      let r := notifySubscribers ports rest mount pct
      (.notifySubscriber s mount pct :: r.1, r.2)
    else ([], some (.actixSendError (toString s)))

def check_filesystem_usage (ports : SysPorts) (subs : List Nat)
    (fc : FilesystemConfig) : List SysAction × Option SysError :=
  match get_mount ports fc with
  | .error e => ([], some e)
  | .ok fs =>
    let pct := percentDiskUsage fs.total fs.avail
    if ports.recordOk fs.fs_mounted_on pct then
      let fanout := notifySubscribers ports subs fs.fs_mounted_on pct
      match fanout.2 with
      | some e => (.recordDiskUsage fs.fs_mounted_on pct :: fanout.1, some e)
      | none =>
        if f64gt pct fc.available_space_alert_above then
          let ev := BroadcastEvent.HighDiskUsage fs.fs_mounted_on pct
            fc.available_space_alert_above
          if ports.pushOk ev then
            (.recordDiskUsage fs.fs_mounted_on pct :: fanout.1 ++ [.pushAlert ev], none)
          else
            (.recordDiskUsage fs.fs_mounted_on pct :: fanout.1, some .outboxFull)
        else
          (.recordDiskUsage fs.fs_mounted_on pct :: fanout.1, none)
    else ([], some (.dbQueryError fs.fs_mounted_on))

/-- check_all_filesystems_usage from src/services/system.rs lines 101-107:
map over the configured filesystems collected into a Result, so the first
failing mount short-circuits and the remaining mounts are not probed in
that tick.  Started() (lines 167-180) logs the error and keeps ticking. -/
def check_all_filesystems_usage (ports : SysPorts) (subs : List Nat) :
    List FilesystemConfig → List SysAction × Option SysError
  | [] => ([], none)
  | fc :: rest =>
    let r := check_filesystem_usage ports subs fc
    match r.2 with
    | some e => (r.1, some e)
    | none =>
      let rr := check_all_filesystems_usage ports subs rest
      (r.1 ++ rr.1, rr.2)

/- ---------------------------------------------------------------------
TwitterService: src/services/twitter.rs
--------------------------------------------------------------------- -/

/-- MAX_TWEETS_TO_SEND from src/services/twitter.rs line 19. -/
def MAX_TWEETS_TO_SEND : Nat := 100

/-- NewTweet (src/db/models.rs); only the fields driving the buffer logic
are kept, the payload columns play no role in any claim. -/
structure NewTweet where
  group_name : String
  text : String
deriving DecidableEq, Repr

/-- One configured term group (src/config.rs TwitterConfig terms entry). -/
structure TermsConfig where
  group_name : String
  terms : List String
deriving DecidableEq, Repr

/-- The per-group tweet_buffer HashMap<String, VecDeque<NewTweet>>,
modelled as an association list with most-recent-binding lookup; the deque
front is the list head and push_back appends. -/
abbrev TweetBuffers : Type := List (String × List NewTweet)

/-- HashMap::get on the buffer map. -/
def bufGet : TweetBuffers → String → Option (List NewTweet)
  | [], _ => none
  | (g', l) :: rest, g => if g' = g then some l else bufGet rest g

/-- HashMap::insert on the buffer map. -/
def bufInsert (b : TweetBuffers) (g : String) (l : List NewTweet) : TweetBuffers :=
  (g, l) :: b

/-- Rust str::contains on the tweet text (twitter.rs line 96): substring
containment on the character sequence. -/
def textContains (text pat : String) : Bool :=
  (List.range (text.data.length + 1)).any (fun i => pat.data.isPrefixOf (text.data.drop i))

/-- The buffer update of Twitter::started (twitter.rs lines 107-119): a
missing group gets a fresh one-element deque; an existing deque first pops
its front when it already holds MAX_TWEETS_TO_SEND entries, then pushes the
tweet at the back. -/
def pushTweetToBuffer (b : TweetBuffers) (g : String) (t : NewTweet) : TweetBuffers :=
  match bufGet b g with
  | none => bufInsert b g [t]
  | some tweets =>
    let tweets := if tweets.length ≥ MAX_TWEETS_TO_SEND then tweets.drop 1 else tweets
    bufInsert b g (tweets ++ [t])

/-- Processing of one incoming tweet by the stream fold of Twitter::started
(twitter.rs lines 90-121): for every configured group whose term list has a
term contained in the tweet text, record the tweet (a port call whose error
is logged, with no effect on the buffers) and push it into that group's
buffer. -/
def processTweet (terms : List TermsConfig) (b : TweetBuffers) (text : String) :
    TweetBuffers :=
  terms.foldl (fun bufs term =>
    if term.terms.any (fun t => textContains text t) then
      pushTweetToBuffer bufs term.group_name ⟨term.group_name, text⟩
    else bufs) b

/-- The buffer state after a sequence of incoming tweets, starting from the
empty map (Twitter::new starts with HashMap::new). -/
def runTwitter (terms : List TermsConfig) (texts : List String) : TweetBuffers :=
  texts.foldl (processTweet terms) []

/- ---------------------------------------------------------------------
Trace properties of the broadcaster drain loop
--------------------------------------------------------------------- -/


/-- Well-formed arrival instants: check, send and record in order. -/
def Arrival.wf (a : Arrival) : Prop :=
  a.tCheck ≤ a.tSend ∧ a.tSend ≤ a.tRecord

/-- Arrivals in monotonic-clock order, starting no earlier than t. -/
def Chrono : Nat → List Arrival → Prop
  | _, [] => True
  | t, a :: rest => t ≤ a.tCheck ∧ a.wf ∧ Chrono a.tRecord rest

/-- Invariant tying LAST_ALERTED to the sends already performed, at clock
floor t. -/
structure TraceInv (la : LastAlerted) (past : List SendRec) (t : Nat) : Prop where
  la_le : ∀ k v, laGet la k = some v → v ≤ t
  past_le : ∀ s ∈ past, s.tSend ≤ t
  la_after : ∀ s ∈ past, ∀ v, laGet la s.key = some v → s.tSend ≤ v
  la_rec : ∀ s ∈ past, (laGet la s.key).isSome
  la_from_past : ∀ k, (laGet la k).isSome → ∃ s ∈ past, s.key = k

theorem TraceInv.mono {la past t t'} (h : TraceInv la past t) (htt : t ≤ t') :
    TraceInv la past t' where
  la_le := fun k v hv => le_trans (h.la_le k v hv) htt
  past_le := fun s hs => le_trans (h.past_le s hs) htt
  la_after := h.la_after
  la_rec := h.la_rec
  la_from_past := h.la_from_past

/-- Per-send record well-formedness: the rule recorded is the rules-map
entry for the event's type, the key is the event's key, and the subject
line is the chosen prefix glued to the event subject. -/
def SendWF (alerts : BroadcastEventType → Option AlertConfig) (s : SendRec) : Prop :=
  alerts s.event.event_type = some s.cfg ∧
  s.key = s.event.event_key ∧
  s.subjectLine = alertMarker s.lastAtSend s.cfg.alert_type ++ " " ++ s.event.subject_and_body.1

/-- Throttle spacing between two sends, first argument earlier. -/
def ThrottleR (s1 s2 : SendRec) : Prop :=
  s1.key = s2.key → ∀ d, s2.cfg.alert_interval = some d → d + s1.tSend < s2.tSend

/-- For each send, the observed LAST_ALERTED entry witnesses exactly the
existence of an earlier send of the same key (past = sends before the
list). -/
def FirstSendOK : List SendRec → List SendRec → Prop
  | _, [] => True
  | past, s :: rest =>
    (s.lastAtSend.isSome ↔ ∃ p ∈ past, p.key = s.key) ∧ FirstSendOK (past ++ [s]) rest

theorem laGet_insert (la : LastAlerted) (k k' : String) (v : Nat) :
    laGet (laInsert la k v) k' = if k = k' then some v else laGet la k' := by
  simp [laInsert, laGet]

-- step characterizations of processArrival
theorem processArrival_none (emailOk : String → String → Bool)
    (alerts : BroadcastEventType → Option AlertConfig) (la : LastAlerted) (a : Arrival)
    (h : alerts a.event.event_type = none) :
    processArrival emailOk alerts la a = ⟨la, [], [], false⟩ := by
  simp [processArrival, h]

theorem processArrival_skip (emailOk : String → String → Bool)
    (alerts : BroadcastEventType → Option AlertConfig) (la : LastAlerted) (a : Arrival)
    (cfg : AlertConfig) (h : alerts a.event.event_type = some cfg)
    (hsn : sendNow cfg (laGet la a.event.event_key) a.tCheck = false) :
    processArrival emailOk alerts la a = ⟨la, [], [], false⟩ := by
  simp [processArrival, h, hsn]

theorem processArrival_send (emailOk : String → String → Bool)
    (alerts : BroadcastEventType → Option AlertConfig) (la : LastAlerted) (a : Arrival)
    (cfg : AlertConfig) (h : alerts a.event.event_type = some cfg)
    (hsn : sendNow cfg (laGet la a.event.event_key) a.tCheck = true) :
    processArrival emailOk alerts la a =
      (let subjectLine := alertMarker (laGet la a.event.event_key) cfg.alert_type ++ " " ++
        a.event.subject_and_body.1
      let sent := sendMediums emailOk cfg.mediums subjectLine a.event.subject_and_body.2
      let sr : SendRec := ⟨a.event.event_key, a.tSend, a.event,
        laGet la a.event.event_key, cfg, subjectLine⟩
      if sent.2 then ⟨la, [sr], sent.1, true⟩
      else ⟨laInsert la a.event.event_key a.tRecord, [sr], sent.1, false⟩) := by
  simp [processArrival, h, hsn]

theorem drain_master (emailOk : String → String → Bool)
    (alerts : BroadcastEventType → Option AlertConfig) :
    ∀ (arrivals : List Arrival) (la : LastAlerted) (past : List SendRec) (t : Nat),
      Chrono t arrivals → TraceInv la past t → List.Pairwise ThrottleR past →
      (∀ s ∈ (drainEvents emailOk alerts la arrivals).sends, SendWF alerts s) ∧
      (∀ p ∈ past, ∀ s ∈ (drainEvents emailOk alerts la arrivals).sends, ThrottleR p s) ∧
      List.Pairwise ThrottleR (drainEvents emailOk alerts la arrivals).sends ∧
      FirstSendOK past (drainEvents emailOk alerts la arrivals).sends := by
  intro arrivals
  induction arrivals with
  | nil =>
    intro la past t _ _ _
    refine ⟨?_, ?_, ?_, ?_⟩ <;> simp [drainEvents, FirstSendOK]
  | cons a rest ih =>
    intro la past t hchrono hinv hpw
    obtain ⟨hta, ⟨hcs, hsr⟩, hrest⟩ := hchrono
    cases hcfg : alerts a.event.event_type with
    | none =>
      have hstep := processArrival_none emailOk alerts la a hcfg
      have hdrain : drainEvents emailOk alerts la (a :: rest) =
          drainEvents emailOk alerts la rest := by
        simp only [drainEvents, hstep]
        cases hr : drainEvents emailOk alerts la rest
        simp
      rw [hdrain]
      exact ih la past a.tRecord hrest
        (hinv.mono (by omega)) hpw
    | some cfg =>
      cases hsn : sendNow cfg (laGet la a.event.event_key) a.tCheck with
      | false =>
        have hstep := processArrival_skip emailOk alerts la a cfg hcfg hsn
        have hdrain : drainEvents emailOk alerts la (a :: rest) =
            drainEvents emailOk alerts la rest := by
          simp only [drainEvents, hstep]
          cases hr : drainEvents emailOk alerts la rest
          simp
        rw [hdrain]
        exact ih la past a.tRecord hrest (hinv.mono (by omega)) hpw
      | true =>
        have hstep := processArrival_send emailOk alerts la a cfg hcfg hsn
        -- common facts about the send record
        set key := a.event.event_key with hkeydef
        set last := laGet la key with hlastdef
        set subjectLine := alertMarker last cfg.alert_type ++ " " ++
          a.event.subject_and_body.1 with hsubjdef
        set sr : SendRec := ⟨key, a.tSend, a.event, last, cfg, subjectLine⟩ with hsrdef
        have hsrwf : SendWF alerts sr := ⟨hcfg, rfl, rfl⟩
        have hthr : ∀ p ∈ past, ThrottleR p sr := by
          intro p hp hkey d hd
          have hrec := hinv.la_rec p hp
          rw [hkey] at hrec
          obtain ⟨v, hv⟩ := Option.isSome_iff_exists.mp hrec
          have hvle := hinv.la_after p hp v (by rw [hkey]; exact hv)
          have hguard : d < a.tCheck - v := by
            rw [hlastdef] at hsn
            rw [show laGet la key = some v from hv] at hsn
            simp [sendNow] at hsn
            rcases hsn with h1 | h1
            · rw [hd] at h1
              simp at h1
            · rw [hd] at h1
              simpa using h1
          simp only [hsrdef]
          omega
        have hfirst : sr.lastAtSend.isSome ↔ ∃ p ∈ past, p.key = sr.key := by
          constructor
          · intro hs
            exact hinv.la_from_past key hs
          · intro ⟨p, hp, hpk⟩
            have := hinv.la_rec p hp
            rw [hpk] at this
            exact this
        cases hpanic : (sendMediums emailOk cfg.mediums subjectLine a.event.subject_and_body.2).2 with
        | true =>
          have hdrain : drainEvents emailOk alerts la (a :: rest) =
              ⟨la, [sr], (sendMediums emailOk cfg.mediums subjectLine a.event.subject_and_body.2).1, true⟩ := by
            simp only [drainEvents, hstep, hpanic]
            simp [hpanic]
          rw [hdrain]
          refine ⟨?_, ?_, ?_, ?_⟩
          · intro s hs
            simp at hs
            subst hs
            exact hsrwf
          · intro p hp s hs
            simp at hs
            subst hs
            exact hthr p hp
          · simp
          · exact ⟨hfirst, trivial⟩
        | false =>
          have hdrain : drainEvents emailOk alerts la (a :: rest) =
              (let rr := drainEvents emailOk alerts (laInsert la key a.tRecord) rest
              ⟨rr.la, sr :: rr.sends,
                (sendMediums emailOk cfg.mediums subjectLine a.event.subject_and_body.2).1 ++ rr.emails,
                rr.panicked⟩) := by
            simp only [drainEvents, hstep, hpanic]
            simp [hpanic]
          have hinv' : TraceInv (laInsert la key a.tRecord) (past ++ [sr]) a.tRecord := by
            constructor
            · intro k v hv
              rw [laGet_insert] at hv
              by_cases hk : key = k
              · simp [hk] at hv
                omega
              · simp [hk] at hv
                have := hinv.la_le k v hv
                omega
            · intro s hs
              rcases List.mem_append.mp hs with hs | hs
              · have := hinv.past_le s hs
                omega
              · simp at hs
                subst hs
                simp only [hsrdef]
                omega
            · intro s hs v hv
              rw [laGet_insert] at hv
              rcases List.mem_append.mp hs with hs | hs
              · by_cases hk : key = s.key
                · simp [hk] at hv
                  have := hinv.past_le s hs
                  omega
                · simp [hk] at hv
                  exact hinv.la_after s hs v hv
              · simp at hs
                subst hs
                simp only [hsrdef] at hv ⊢
                simp at hv
                omega
            · intro s hs
              rw [laGet_insert]
              rcases List.mem_append.mp hs with hs | hs
              · by_cases hk : key = s.key
                · simp [hk]
                · simp [hk]
                  exact hinv.la_rec s hs
              · simp at hs
                subst hs
                simp [hsrdef]
            · intro k hk
              rw [laGet_insert] at hk
              by_cases hkk : key = k
              · exact ⟨sr, by simp, by simp [hsrdef, hkk]⟩
              · simp [hkk] at hk
                obtain ⟨s, hs, hsk⟩ := hinv.la_from_past k hk
                exact ⟨s, List.mem_append.mpr (Or.inl hs), hsk⟩
          have hpw' : List.Pairwise ThrottleR (past ++ [sr]) := by
            rw [List.pairwise_append]
            exact ⟨hpw, List.pairwise_singleton _ _, fun p hp s hs => by
              simp at hs
              subst hs
              exact hthr p hp⟩
          obtain ⟨ihwf, ihpast, ihpw, ihfirst⟩ :=
            ih (laInsert la key a.tRecord) (past ++ [sr]) a.tRecord hrest hinv' hpw'
          rw [hdrain]
          refine ⟨?_, ?_, ?_, ?_⟩
          · intro s hs
            simp at hs
            rcases hs with hs | hs
            · subst hs
              exact hsrwf
            · exact ihwf s hs
          · intro p hp s hs
            simp at hs
            rcases hs with hs | hs
            · subst hs
              exact hthr p hp
            · exact ihpast p (List.mem_append.mpr (Or.inl hp)) s hs
          · simp only [List.pairwise_cons]
            refine ⟨fun s hs => ?_, ihpw⟩
            exact ihpast sr (List.mem_append.mpr (Or.inr (by simp))) s hs
          · exact ⟨hfirst, ihfirst⟩



/-- Rust str::starts_with on the subject strings: prefix test on the
underlying character list. -/
def strStartsWith (p s : String) : Bool := p.data.isPrefixOf s.data

/-- Indexed reading of FirstSendOK: the LAST_ALERTED entry observed by the
j-th send exists exactly when a past send or an earlier send in the list
has the same key. -/
theorem firstSendOK_get :
    ∀ (rest past : List SendRec), FirstSendOK past rest →
      ∀ j (hj : j < rest.length),
        ((rest.get ⟨j, hj⟩).lastAtSend).isSome = true ↔
          ((∃ p ∈ past, p.key = (rest.get ⟨j, hj⟩).key) ∨
           (∃ i, ∃ (hi : i < rest.length), i < j ∧
             (rest.get ⟨i, hi⟩).key = (rest.get ⟨j, hj⟩).key)) := by
  intro rest
  induction rest with
  | nil => intro past _ j hj; exact absurd hj (by simp)
  | cons s rest ih =>
    intro past hok j hj
    obtain ⟨hs, hrest⟩ := hok
    match j with
    | 0 =>
      simp only [List.get]
      constructor
      · intro h
        exact Or.inl (hs.mp h)
      · intro h
        rcases h with h | ⟨i, hi, hlt, _⟩
        · exact hs.mpr h
        · omega
    | j + 1 =>
      simp only [List.get]
      have := ih (past ++ [s]) hrest j (by simpa using hj)
      rw [this]
      constructor
      · intro h
        rcases h with ⟨p, hp, hpk⟩ | ⟨i, hi, hlt, hik⟩
        · rcases List.mem_append.mp hp with hp | hp
          · exact Or.inl ⟨p, hp, hpk⟩
          · simp at hp
            subst hp
            refine Or.inr ⟨0, by simp, by omega, ?_⟩
            simpa using hpk
        · exact Or.inr ⟨i + 1, by simpa using hi, by omega, hik⟩
      · intro h
        rcases h with ⟨p, hp, hpk⟩ | ⟨i, hi, hlt, hik⟩
        · exact Or.inl ⟨p, List.mem_append.mpr (Or.inl hp), hpk⟩
        · match i with
          | 0 =>
            refine Or.inl ⟨s, List.mem_append.mpr (Or.inr (by simp)), ?_⟩
            simpa using hik
          | i + 1 =>
            exact Or.inr ⟨i, by simpa using hi, by omega, hik⟩



/-- The invariant holds at process start: empty map, no sends. -/
theorem trivTraceInv : TraceInv [] [] 0 := by
  constructor <;> simp [laGet]

/-- No event subject begins with the retrigger marker. -/
theorem notRetriggered (e : BroadcastEvent) :
    strStartsWith "Retriggered:" e.subject_and_body.1 = false := by
  cases e <;> simp [strStartsWith, BroadcastEvent.subject_and_body] <;> rfl

/-- A subject line built with the plain marker carries the retrigger
marker only if the event subject itself starts with it. -/
theorem retriggered_cancel (subj : String)
    (h : strStartsWith "[PULSE] Retriggered:" ("[PULSE] " ++ subj) = true) :
    strStartsWith "Retriggered:" subj = true := by
  simp [strStartsWith, List.isPrefixOf_iff_prefix, String.data_append] at h ⊢
  exact h

/-- The two possible subject lines for one event differ. -/
theorem pulse_ne_retriggered (subj : String) :
    ("[PULSE] " ++ subj) ≠ ("[PULSE] Retriggered: " ++ subj) := by
  intro h
  have := congrArg String.length h
  simp [String.length_append] at this
  have h8 : "[PULSE] ".length = 8 := rfl
  have h21 : "[PULSE] Retriggered: ".length = 21 := rfl
  omega

-- C6
/- ---------------------------------------------------------------------
Helper lemmas: strings, scheduler action counts, tweet buffers
--------------------------------------------------------------------- -/

/-- Left cancellation of string append. -/
theorem strAppendCancel (s m1 m2 : String) : s ++ m1 = s ++ m2 ↔ m1 = m2 := by
  constructor
  · intro h
    have := congrArg String.data h
    simp [String.data_append] at this
    exact String.ext this
  · intro h; rw [h]

/-- A string with a strictly longer mandatory head cannot equal a shorter
literal. -/
theorem strAppendNeOfLengthLt (s m t : String) (h : t.length < s.length) : s ++ m ≠ t := by
  intro he
  have hl := congrArg String.length he
  rw [String.length_append] at hl
  omega

theorem countInserts_append (l1 l2 : List SchedAction) :
    countInserts (l1 ++ l2) = countInserts l1 + countInserts l2 := by
  simp [countInserts, List.filter_append]

theorem countDispatchTo_append (svc : Nat) (l1 l2 : List SchedAction) :
    countDispatchTo svc (l1 ++ l2) = countDispatchTo svc l1 + countDispatchTo svc l2 := by
  simp [countDispatchTo, List.filter_append]

theorem countInserts_closureFire (p : String → Option (Nat → Bool)) (sc : ScheduleConfig)
    (svc t : Nat) :
    countInserts (closureFire p sc svc t) = if closureDue p sc t then 1 else 0 := by
  by_cases h : closureDue p sc t <;> simp [closureFire, h, countInserts]

theorem countDispatchTo_closureFire (p : String → Option (Nat → Bool)) (sc : ScheduleConfig)
    (svc s t : Nat) :
    countDispatchTo s (closureFire p sc svc t) =
      if closureDue p sc t ∧ svc = s then 1 else 0 := by
  by_cases h : closureDue p sc t <;> by_cases h2 : svc = s <;>
    simp [closureFire, h, h2, countDispatchTo]

theorem countInserts_tick (p : String → Option (Nat → Bool)) (sc : ScheduleConfig)
    (services : List Nat) (t : Nat) :
    countInserts (schedulerTick p [sc] services t) =
      if closureDue p sc t then services.length else 0 := by
  induction services with
  | nil => simp [schedulerTick, countInserts]
  | cons s rest ih =>
    simp only [schedulerTick, List.flatMap_cons, List.flatMap_nil, List.append_nil] at ih ⊢
    rw [countInserts_append, ih, countInserts_closureFire]
    by_cases h : closureDue p sc t <;> simp [h] <;> omega

theorem countDispatchTo_tick (p : String → Option (Nat → Bool)) (sc : ScheduleConfig)
    (services : List Nat) (s t : Nat) :
    countDispatchTo s (schedulerTick p [sc] services t) =
      if closureDue p sc t then services.count s else 0 := by
  induction services with
  | nil => simp [schedulerTick, countDispatchTo]
  | cons v rest ih =>
    simp only [schedulerTick, List.flatMap_cons, List.flatMap_nil, List.append_nil] at ih ⊢
    rw [countDispatchTo_append, ih, countDispatchTo_closureFire]
    by_cases h : closureDue p sc t <;> by_cases h2 : v = s <;>
      simp [h, h2, List.count_cons] <;> omega

theorem bufGet_insert (b : TweetBuffers) (g g' : String) (l : List NewTweet) :
    bufGet (bufInsert b g l) g' = if g = g' then some l else bufGet b g' := by
  simp [bufInsert, bufGet]

/-- All buffers bounded by the ring capacity. -/
def BufBounded (b : TweetBuffers) : Prop :=
  ∀ g l, bufGet b g = some l → l.length ≤ MAX_TWEETS_TO_SEND

theorem bufBounded_push (b : TweetBuffers) (g : String) (t : NewTweet)
    (hB : BufBounded b) : BufBounded (pushTweetToBuffer b g t) := by
  intro g' l' h'
  unfold pushTweetToBuffer at h'
  cases hb : bufGet b g with
  | none =>
    rw [hb] at h'
    rw [bufGet_insert] at h'
    by_cases hg : g = g'
    · simp [hg] at h'
      subst h'
      simp [MAX_TWEETS_TO_SEND]
    · simp [hg] at h'
      exact hB g' l' h'
  | some tweets =>
    rw [hb] at h'
    simp only [bufGet_insert] at h'
    by_cases hg : g = g'
    · have htw := hB g tweets hb
      simp only [hg, if_true] at h'
      have h'' := h'.symm
      injection h'' with h''
      subst h''
      by_cases hlen : tweets.length ≥ MAX_TWEETS_TO_SEND
      · simp [hlen, List.length_drop]
        unfold MAX_TWEETS_TO_SEND at *
        omega
      · simp [hlen]
        unfold MAX_TWEETS_TO_SEND at *
        omega
    · simp [hg] at h'
      exact hB g' l' h'

theorem bufBounded_processTweet (terms : List TermsConfig) (b : TweetBuffers)
    (text : String) (hB : BufBounded b) : BufBounded (processTweet terms b text) := by
  unfold processTweet
  induction terms generalizing b with
  | nil => simpa using hB
  | cons term rest ih =>
    simp only [List.foldl_cons]
    by_cases h : term.terms.any (fun t => textContains text t)
    · simp only [h, if_true]
      exact ih _ (bufBounded_push _ _ _ hB)
    · simp only [h]
      simp only [Bool.false_eq_true, if_false]
      exact ih _ hB

theorem bufBounded_run (terms : List TermsConfig) (texts : List String)
    (b : TweetBuffers) (hB : BufBounded b) :
    BufBounded (texts.foldl (processTweet terms) b) := by
  induction texts generalizing b with
  | nil => simpa using hB
  | cons txt rest ih =>
    simp only [List.foldl_cons]
    exact ih _ (bufBounded_processTweet terms b txt hB)

/- ---------------------------------------------------------------------
Witness fixtures
--------------------------------------------------------------------- -/

/-- Test rule: HighDiskUsage alerts by email, interval 5, type Alarm. -/
def cfgW : AlertConfig := ⟨some 5, .HighDiskUsage, [.Email], .Alarm⟩

/-- Rules map holding only the HighDiskUsage rule. -/
def alertsW : BroadcastEventType → Option AlertConfig := fun ty =>
  match ty with
  | .HighDiskUsage => some cfgW
  | _ => none

/-- Test event: high disk usage on the root mount. -/
def eW : BroadcastEvent := .HighDiskUsage "/" (F64.val 100) (F64.val 50)

/-- Two arrivals of the same event, at instants 1 and 10. -/
def arrivalsW : List Arrival := [⟨eW, 1, 1, 1⟩, ⟨eW, 10, 10, 10⟩]

/-- The first send the drain performs on arrivalsW. -/
def sr1W : SendRec :=
  ⟨"\"high-disk-usage\"/", 1, eW, none, cfgW, "[PULSE] High Disk Usage"⟩

/-- The second send the drain performs on arrivalsW. -/
def sr2W : SendRec :=
  ⟨"\"high-disk-usage\"/", 10, eW, some 1, cfgW, "[PULSE] Retriggered: High Disk Usage"⟩

theorem chronoW : Chrono 0 arrivalsW := by
  simp [Chrono, Arrival.wf, arrivalsW]

/- ---------------------------------------------------------------------
Claims
--------------------------------------------------------------------- -/

/-- Claim C1, counterexample.  The claim says an email error is logged and
the Broadcaster proceeds with the remaining drained events.  In the code
the send_email Result is unwrapped (broadcast.rs line 132), so with an
always-failing email port and two queued events the drain panics on the
first event: the result is marked panicked, only one send was attempted,
the second event was never processed, and LAST_ALERTED was never updated. -/
theorem c1_counterexample :
    (drainEvents (fun _ _ => false) alertsW []
      [⟨eW, 0, 0, 0⟩, ⟨.HighDiskUsage "/mnt/test" (F64.val 100) (F64.val 50), 1, 1, 1⟩]).panicked
        = true ∧
    (drainEvents (fun _ _ => false) alertsW []
      [⟨eW, 0, 0, 0⟩, ⟨.HighDiskUsage "/mnt/test" (F64.val 100) (F64.val 50), 1, 1, 1⟩]).sends.length
        = 1 ∧
    (drainEvents (fun _ _ => false) alertsW []
      [⟨eW, 0, 0, 0⟩, ⟨.HighDiskUsage "/mnt/test" (F64.val 100) (F64.val 50), 1, 1, 1⟩]).la
        = [] := by
  refine ⟨?_, ?_, ?_⟩ <;> rfl

/-- Claim C1, amended.  If the email port returns an error while the
Broadcaster is delivering a drained event, the unwrap panics the tick: the
drain of the outbox stops at that event, the remaining drained events are
not processed, and the failing event's LAST_ALERTED entry is not
recorded. -/
theorem c1_email_error_panics_drain (emailOk : String → String → Bool)
    (alerts : BroadcastEventType → Option AlertConfig)
    (la : LastAlerted) (a : Arrival) (rest : List Arrival)
    (h : (processArrival emailOk alerts la a).panicked = true) :
    drainEvents emailOk alerts la (a :: rest) = processArrival emailOk alerts la a ∧
    (processArrival emailOk alerts la a).la = la := by
  constructor
  · simp [drainEvents, h]
  · simp only [processArrival] at h ⊢
    cases hcfg : alerts a.event.event_type with
    | none => simp [hcfg] at h
    | some cfg =>
      simp only [hcfg] at h ⊢
      split at h
      · split at h
        · simp_all
        · simp_all
      · simp_all

theorem c1_email_error_panics_drain_witness :
    (processArrival (fun _ _ => false) alertsW [] ⟨eW, 0, 0, 0⟩).panicked = true ∧
    drainEvents (fun _ _ => false) alertsW [] (⟨eW, 0, 0, 0⟩ :: [⟨eW, 1, 1, 1⟩]) =
      processArrival (fun _ _ => false) alertsW [] ⟨eW, 0, 0, 0⟩ ∧
    (processArrival (fun _ _ => false) alertsW [] ⟨eW, 0, 0, 0⟩).la = [] := by
  refine ⟨rfl, ?_⟩
  exact c1_email_error_panics_drain (fun _ _ => false) alertsW [] ⟨eW, 0, 0, 0⟩
    [⟨eW, 1, 1, 1⟩] rfl

/-- Claim C2.  For any event key governed by a rule with alert_interval
Some(d), any two sends of that key in a monotonic-clock trace are spaced
strictly more than d apart: an event is sent only when LAST_ALERTED has no
entry for its key or strictly more than d elapsed since the recorded
instant, and a send that completes records the post-delivery instant, so
the i-th and j-th sends of a drain run from the empty map satisfy
tSend j - tSend i > d. -/
theorem c2_throttle_spacing (emailOk : String → String → Bool)
    (alerts : BroadcastEventType → Option AlertConfig) (arrivals : List Arrival)
    (hchrono : Chrono 0 arrivals)
    (i j : Nat) (si sj : SendRec)
    (hi : (drainEvents emailOk alerts [] arrivals).sends.get? i = some si)
    (hj : (drainEvents emailOk alerts [] arrivals).sends.get? j = some sj)
    (hij : i < j) (hkey : si.key = sj.key)
    (cfg : AlertConfig) (d : Nat)
    (hcfg : alerts sj.event.event_type = some cfg)
    (hd : cfg.alert_interval = some d) :
    sj.tSend - si.tSend > d := by
  obtain ⟨hwf, _, hpw, _⟩ :=
    drain_master emailOk alerts arrivals [] [] 0 hchrono trivTraceInv (by simp)
  obtain ⟨hi', hgi⟩ := List.get?_eq_some.mp hi
  obtain ⟨hj', hgj⟩ := List.get?_eq_some.mp hj
  have hthr : ThrottleR si sj := by
    have := List.pairwise_iff_get.mp hpw ⟨i, hi'⟩ ⟨j, hj'⟩ hij
    rwa [hgi, hgj] at this
  have hsjwf := hwf sj (by rw [← hgj]; exact List.get_mem _ _ _)
  obtain ⟨hcfg', _, _⟩ := hsjwf
  rw [hcfg] at hcfg'
  have hcfgeq : cfg = sj.cfg := Option.some.inj hcfg'
  have := hthr hkey d (by rw [← hcfgeq]; exact hd)
  omega

theorem c2_throttle_spacing_witness :
    Chrono 0 arrivalsW ∧ sr2W.tSend - sr1W.tSend > 5 := by
  refine ⟨chronoW, ?_⟩
  exact c2_throttle_spacing (fun _ _ => true) alertsW arrivalsW chronoW 0 1 sr1W sr2W
    rfl rfl (by omega) rfl cfgW 5 rfl rfl

/-- Claim C3, counterexample.  The claim says one task-record insert per
firing regardless of the number of runners, so 3 inserts after each of two
runners received 3 firings.  The code registers one interval closure per
(schedule, service) pair, each closure doing its own insert: with one
always-due task and runners 0 and 1, after 3 firing ticks each runner
received exactly 3 firings but Storage received 6 inserts, not 3. -/
theorem c3_counterexample :
    countDispatchTo 0 (schedulerRun
        (fun s => if s = "* * * * * * *" then some (fun _ => true) else none)
        [⟨some "* * * * * * *", .CheckDiskUsage⟩] [0, 1] 3) = 3 ∧
    countDispatchTo 1 (schedulerRun
        (fun s => if s = "* * * * * * *" then some (fun _ => true) else none)
        [⟨some "* * * * * * *", .CheckDiskUsage⟩] [0, 1] 3) = 3 ∧
    countInserts (schedulerRun
        (fun s => if s = "* * * * * * *" then some (fun _ => true) else none)
        [⟨some "* * * * * * *", .CheckDiskUsage⟩] [0, 1] 3) = 6 ∧
    ¬ countInserts (schedulerRun
        (fun s => if s = "* * * * * * *" then some (fun _ => true) else none)
        [⟨some "* * * * * * *", .CheckDiskUsage⟩] [0, 1] 3) = 3 := by
  refine ⟨rfl, rfl, rfl, by decide⟩

/-- Claim C3, amended.  For a scheduler with one task, each firing tick
performs one task-record insert per registered runner, not one per firing:
over any window, Storage receives (number of runners) x (number of firing
ticks) inserts while every runner receives one dispatch per firing tick
times its registration multiplicity.  With two runners and 3 firings that
is 6 inserts, not 3. -/
theorem c3_inserts_per_runner (p : String → Option (Nat → Bool)) (sc : ScheduleConfig)
    (services : List Nat) (n : Nat) :
    countInserts (schedulerRun p [sc] services n) = services.length * dueCount p sc n ∧
    ∀ svc, countDispatchTo svc (schedulerRun p [sc] services n) =
      services.count svc * dueCount p sc n := by
  induction n with
  | zero => simp [schedulerRun, dueCount, countInserts, countDispatchTo]
  | succ n ih =>
    obtain ⟨ih1, ih2⟩ := ih
    have hrun : schedulerRun p [sc] services (n + 1) =
        schedulerRun p [sc] services n ++ schedulerTick p [sc] services n := by
      simp [schedulerRun, List.range_succ]
    have hdue : dueCount p sc (n + 1) =
        dueCount p sc n + (if closureDue p sc n then 1 else 0) := by
      simp [dueCount, List.range_succ, List.filter_append]
      by_cases h : closureDue p sc n <;> simp [h]
    constructor
    · rw [hrun, countInserts_append, ih1, countInserts_tick, hdue]
      by_cases h : closureDue p sc n <;> simp [h] <;> ring
    · intro svc
      rw [hrun, countDispatchTo_append, ih2, countDispatchTo_tick, hdue]
      by_cases h : closureDue p sc n <;> simp [h] <;> ring

/-- Claim C4, counterexample.  The claim says a task whose cron string
fails to parse is dropped at startup and never fires.  The code stores
CronSchedule::from_str(c).ok(), so a failed parse leaves None and the tick
closure falls through to the firing path on every tick: with a parse
oracle rejecting the string, after 2 ticks the task fired twice (2 inserts
and 2 dispatches), not zero times. -/
theorem c4_counterexample :
    countInserts (schedulerRun (fun _ => none)
      [⟨some "not a cron expression", .FetchNews⟩] [0] 2) = 2 ∧
    countDispatchTo 0 (schedulerRun (fun _ => none)
      [⟨some "not a cron expression", .FetchNews⟩] [0] 2) = 2 := by
  exact ⟨rfl, rfl⟩

/-- Claim C4, amended.  A scheduled task whose cron string fails to parse
is not dropped: the parse failure is discarded by ok() and the task
behaves as if it had no cron schedule, firing (one insert plus a dispatch
to its runner) on every scheduler tick. -/
theorem c4_unparsed_cron_fires_every_tick (p : String → Option (Nat → Bool))
    (c : String) (msg : ScheduleMessage) (svc t : Nat) (h : p c = none) :
    closureFire p ⟨some c, msg⟩ svc t =
      [.insertTaskRecord msg.toJson, .dispatch svc msg] := by
  simp [closureFire, closureDue, Option.bind, h]

theorem c4_unparsed_cron_fires_every_tick_witness :
    (fun (_ : String) => (none : Option (Nat → Bool))) "not a cron expression" = none ∧
    closureFire (fun _ => none) ⟨some "not a cron expression", .FetchNews⟩ 7 0 =
      [.insertTaskRecord ScheduleMessage.FetchNews.toJson, .dispatch 7 .FetchNews] := by
  refine ⟨rfl, ?_⟩
  exact c4_unparsed_cron_fires_every_tick (fun _ => none) "not a cron expression"
    .FetchNews 7 0 rfl

/-- Claim C5, counterexample.  The claim says two TwitterAlert events have
equal keys if and only if their groups are equal.  In event_key the
TwitterAlert arm uses the serialized event type alone (events.rs
lines 146-148), so two TwitterAlert events with different groups share the
same key. -/
theorem c5_counterexample :
    (BroadcastEvent.TwitterAlert "groupA" 0 0 []).event_key =
      (BroadcastEvent.TwitterAlert "groupB" 1 2 []).event_key ∧
    "groupA" ≠ "groupB" := by
  exact ⟨rfl, by decide⟩

/-- Claim C5, amended.  event_key equality characterization: two
HighDiskUsage events have equal keys iff their mounts are equal
(independent of usage values); Newscast keys on its type alone; a
TwitterAlert keys on its type alone as well, so any two TwitterAlert
events share one key regardless of group; and events of different
variants never share a key. -/
theorem c5_event_key_characterization :
    ∀ e1 e2 : BroadcastEvent, (e1.event_key = e2.event_key ↔
      (match e1, e2 with
       | .HighDiskUsage m1 _ _, .HighDiskUsage m2 _ _ => m1 = m2
       | .Newscast _, .Newscast _ => True
       | .TwitterAlert _ _ _ _, .TwitterAlert _ _ _ _ => True
       | _, _ => False)) := by
  intro e1 e2
  cases e1 <;> cases e2 <;>
    simp only [BroadcastEvent.event_key, BroadcastEvent.event_type, BroadcastEventType.toJson] <;>
    first
      | exact strAppendCancel _ _ _
      | decide
      | (constructor
         · intro h
           exact absurd h (strAppendNeOfLengthLt _ _ _ (by decide))
         · intro h
           exact h.elim)
      | (constructor
         · intro h
           exact absurd h.symm (strAppendNeOfLengthLt _ _ _ (by decide))
         · intro h
           exact h.elim)

/-- Claim C6.  Every send's subject line is the chosen marker glued to the
event subject, where the marker is "[PULSE]" when the event's key had no
LAST_ALERTED entry at send time or the rule's alert_type is Digest, and
"[PULSE] Retriggered:" otherwise.  Consequently, in a run from the empty
map, a Digest send never carries the retrigger marker, and an Alarm send
carries it exactly when an earlier send of the same key exists. -/
theorem c6_subject_marker (emailOk : String → String → Bool)
    (alerts : BroadcastEventType → Option AlertConfig) (arrivals : List Arrival)
    (hchrono : Chrono 0 arrivals) (j : Nat) (sj : SendRec)
    (hj : (drainEvents emailOk alerts [] arrivals).sends.get? j = some sj) :
    sj.subjectLine =
      alertMarker sj.lastAtSend sj.cfg.alert_type ++ " " ++ sj.event.subject_and_body.1 ∧
    (sj.cfg.alert_type = AlertType.Digest →
      sj.subjectLine = "[PULSE] " ++ sj.event.subject_and_body.1 ∧
      strStartsWith "[PULSE] Retriggered:" sj.subjectLine = false) ∧
    (sj.cfg.alert_type = AlertType.Alarm →
      ((∃ i si, i < j ∧
          (drainEvents emailOk alerts [] arrivals).sends.get? i = some si ∧
          si.key = sj.key) ↔
        sj.subjectLine = "[PULSE] Retriggered: " ++ sj.event.subject_and_body.1)) := by
  obtain ⟨hwf, _, _, hfirst⟩ :=
    drain_master emailOk alerts arrivals [] [] 0 hchrono trivTraceInv (by simp)
  obtain ⟨hj', hgj⟩ := List.get?_eq_some.mp hj
  have hsjwf := hwf sj (by rw [← hgj]; exact List.get_mem _ _ _)
  obtain ⟨hcfg, hkeyeq, hsubj⟩ := hsjwf
  have hIdx := firstSendOK_get _ [] hfirst j hj'
  rw [hgj] at hIdx
  simp only [List.not_mem_nil, false_and, exists_false, false_or] at hIdx
  have hSome : sj.lastAtSend.isSome = true ↔
      (∃ i si, i < j ∧
        (drainEvents emailOk alerts [] arrivals).sends.get? i = some si ∧
        si.key = sj.key) := by
    rw [hIdx]
    constructor
    · intro ⟨i, hi, hlt, hik⟩
      exact ⟨i, _, hlt, List.get?_eq_some.mpr ⟨hi, rfl⟩, hik⟩
    · intro ⟨i, si, hlt, hgi, hik⟩
      obtain ⟨hi, hgi'⟩ := List.get?_eq_some.mp hgi
      refine ⟨i, hi, hlt, ?_⟩
      rw [hgi']
      exact hik
  refine ⟨hsubj, ?_, ?_⟩
  · intro hD
    have hap : alertMarker sj.lastAtSend sj.cfg.alert_type = "[PULSE]" := by
      simp [alertMarker, hD]
    rw [hap] at hsubj
    have hsubj' : sj.subjectLine = "[PULSE] " ++ sj.event.subject_and_body.1 := hsubj
    refine ⟨hsubj', ?_⟩
    by_contra hcon
    simp only [Bool.not_eq_false] at hcon
    rw [hsubj'] at hcon
    have := retriggered_cancel _ hcon
    rw [notRetriggered] at this
    cases this
  · intro hA
    cases hlast : sj.lastAtSend with
    | none =>
      have hap : alertMarker sj.lastAtSend sj.cfg.alert_type = "[PULSE]" := by
        simp [alertMarker, hlast]
      rw [hap] at hsubj
      refine iff_of_false ?_ ?_
      · intro hex
        have := hSome.mpr hex
        rw [hlast] at this
        cases this
      · intro hcon
        rw [hsubj] at hcon
        exact pulse_ne_retriggered _ hcon
    | some v =>
      have hap : alertMarker sj.lastAtSend sj.cfg.alert_type = "[PULSE] Retriggered:" := by
        simp [alertMarker, hlast, hA]
      rw [hap] at hsubj
      refine iff_of_true ?_ hsubj
      exact hSome.mp (by rw [hlast]; rfl)

theorem c6_subject_marker_witness :
    Chrono 0 arrivalsW ∧
    (sr2W.subjectLine =
      alertMarker sr2W.lastAtSend sr2W.cfg.alert_type ++ " " ++ sr2W.event.subject_and_body.1 ∧
    (sr2W.cfg.alert_type = AlertType.Digest →
      sr2W.subjectLine = "[PULSE] " ++ sr2W.event.subject_and_body.1 ∧
      strStartsWith "[PULSE] Retriggered:" sr2W.subjectLine = false) ∧
    (sr2W.cfg.alert_type = AlertType.Alarm →
      ((∃ i si, i < 1 ∧
          (drainEvents (fun _ _ => true) alertsW [] arrivalsW).sends.get? i = some si ∧
          si.key = sr2W.key) ↔
        sr2W.subjectLine = "[PULSE] Retriggered: " ++ sr2W.event.subject_and_body.1))) := by
  refine ⟨chronoW, ?_⟩
  exact c6_subject_marker (fun _ _ => true) alertsW arrivalsW chronoW 1 sr2W rfl

/-- Claim C7, counterexample.  The claim says a probe reporting total
bytes 0 yields percent_used 0 with the division guarded.  The code divides
unconditionally (system.rs lines 115-119): with total 0 and avail 0 the
f64 division is 0.0/0.0, which is NaN, not 0. -/
theorem c7_counterexample :
    percentDiskUsage 0 0 = F64.nan ∧ F64.nan ≠ F64.val 0 := by
  exact ⟨rfl, by decide⟩

/-- Claim C7, amended.  There is no guard on total = 0: for a filesystem
sample whose probe reports 0 total bytes, the computed percent_used is NaN
(an unguarded 0/0 in f64), and when the database insert is attempted the
persisted record carries NaN percent used, not 0. -/
theorem c7_zero_total_yields_nan (ports : SysPorts) (subs : List Nat)
    (fc : FilesystemConfig) (fs : Filesystem)
    (hget : get_mount ports fc = .ok fs) (h0 : fs.total = 0) :
    percentDiskUsage fs.total fs.avail = F64.nan ∧
    (ports.recordOk fs.fs_mounted_on F64.nan = true →
      (check_filesystem_usage ports subs fc).1.head? =
        some (.recordDiskUsage fs.fs_mounted_on F64.nan)) := by
  have hnan : percentDiskUsage fs.total fs.avail = F64.nan := by
    rw [h0]; simp [percentDiskUsage, F64.div, F64.mul]
  refine ⟨hnan, fun hrec => ?_⟩
  simp only [check_filesystem_usage, hget, hnan, hrec, if_true]
  split
  · simp
  · simp [f64gt]

theorem c7_zero_total_yields_nan_witness :
    get_mount ⟨fun p => .ok ⟨0, 0, p⟩, fun _ _ => true, fun _ => true, fun _ => true⟩
        ⟨⟨true, "/data"⟩, F64.val 90⟩ = .ok ⟨0, 0, "/data"⟩ ∧
    (Filesystem.mk 0 0 "/data").total = 0 ∧
    (percentDiskUsage (Filesystem.mk 0 0 "/data").total (Filesystem.mk 0 0 "/data").avail = F64.nan ∧
    ((SysPorts.mk (fun p => .ok ⟨0, 0, p⟩) (fun _ _ => true) (fun _ => true) (fun _ => true)).recordOk
        (Filesystem.mk 0 0 "/data").fs_mounted_on F64.nan = true →
      (check_filesystem_usage
          ⟨fun p => .ok ⟨0, 0, p⟩, fun _ _ => true, fun _ => true, fun _ => true⟩
          [] ⟨⟨true, "/data"⟩, F64.val 90⟩).1.head? =
        some (.recordDiskUsage (Filesystem.mk 0 0 "/data").fs_mounted_on F64.nan))) := by
  refine ⟨rfl, rfl, ?_⟩
  exact c7_zero_total_yields_nan
    ⟨fun p => .ok ⟨0, 0, p⟩, fun _ _ => true, fun _ => true, fun _ => true⟩
    [] ⟨⟨true, "/data"⟩, F64.val 90⟩ ⟨0, 0, "/data"⟩ rfl rfl

/-- Claim C8, counterexample.  The claim says a failure on one mount
skips only that mount, every other configured mount still being probed
and recorded in the same tick.  check_all_filesystems_usage collects the
per-mount Results (system.rs lines 101-107), which short-circuits: with
the first mount's probe failing, the tick ends with no actions at all,
so the second healthy mount was not probed, recorded or checked. -/
theorem c8_counterexample :
    check_all_filesystems_usage
      ⟨fun p => if p = "/a" then .error "probe failed" else .ok ⟨100, 50, p⟩,
       fun _ _ => true, fun _ => true, fun _ => true⟩
      []
      [⟨⟨true, "/a"⟩, F64.val 90⟩, ⟨⟨true, "/b"⟩, F64.val 90⟩] =
      ([], some (.probeError "probe failed")) := by
  rfl

/-- Claim C8, amended.  Within one tick, a failure on one mount aborts the
remainder of the filesystem list: mounts before the failing one are fully
processed, the failing mount's error propagates to started() which logs it
and keeps ticking, and the mounts after the failing one are skipped until
the next tick. -/
theorem c8_failing_mount_aborts_tick (ports : SysPorts) (subs : List Nat)
    (pre rest : List FilesystemConfig) (f : FilesystemConfig)
    (af : List SysAction) (e : SysError)
    (hpre : ∀ m ∈ pre, (check_filesystem_usage ports subs m).2 = none)
    (hf : check_filesystem_usage ports subs f = (af, some e)) :
    check_all_filesystems_usage ports subs (pre ++ f :: rest) =
      (pre.flatMap (fun m => (check_filesystem_usage ports subs m).1) ++ af, some e) := by
  induction pre with
  | nil => simp [check_all_filesystems_usage, hf]
  | cons m pre ih =>
    have hm := hpre m (List.mem_cons_self m pre)
    have ih' := ih (fun m' hm' => hpre m' (List.mem_cons_of_mem m hm'))
    simp only [List.cons_append, check_all_filesystems_usage, hm]
    simp [ih']

theorem c8_failing_mount_aborts_tick_witness :
    (∀ m ∈ [(⟨⟨true, "/b"⟩, F64.val 90⟩ : FilesystemConfig)],
      (check_filesystem_usage
        ⟨fun p => if p = "/a" then .error "probe failed" else .ok ⟨100, 50, p⟩,
         fun _ _ => true, fun _ => true, fun _ => true⟩ [] m).2 = none) ∧
    check_all_filesystems_usage
      ⟨fun p => if p = "/a" then .error "probe failed" else .ok ⟨100, 50, p⟩,
       fun _ _ => true, fun _ => true, fun _ => true⟩
      []
      ([⟨⟨true, "/b"⟩, F64.val 90⟩] ++ (⟨⟨true, "/a"⟩, F64.val 90⟩ : FilesystemConfig) :: []) =
      ([(⟨⟨true, "/b"⟩, F64.val 90⟩ : FilesystemConfig)].flatMap
        (fun m => (check_filesystem_usage
          ⟨fun p => if p = "/a" then .error "probe failed" else .ok ⟨100, 50, p⟩,
           fun _ _ => true, fun _ => true, fun _ => true⟩ [] m).1) ++ [],
       some (.probeError "probe failed")) := by
  have hpre : ∀ m ∈ [(⟨⟨true, "/b"⟩, F64.val 90⟩ : FilesystemConfig)],
      (check_filesystem_usage
        ⟨fun p => if p = "/a" then .error "probe failed" else .ok ⟨100, 50, p⟩,
         fun _ _ => true, fun _ => true, fun _ => true⟩ [] m).2 = none := by
    intro m hm
    simp only [List.mem_singleton] at hm
    subst hm
    simp [check_filesystem_usage, get_mount, PathBuf.to_str, percentDiskUsage,
      notifySubscribers, f64gt, F64.div, F64.mul]
    norm_num
  refine ⟨hpre, ?_⟩
  exact c8_failing_mount_aborts_tick _ [] [⟨⟨true, "/b"⟩, F64.val 90⟩] []
    ⟨⟨true, "/a"⟩, F64.val 90⟩ [] (.probeError "probe failed") hpre rfl

/-- Claim C9.  For every sequence of incoming tweets processed from the
empty buffer map, each group's buffer holds at most
MAX_TWEETS_TO_SEND = 100 entries, and inserting into any buffer already at
capacity first evicts the oldest (front) entry and appends the new tweet
at the back (FIFO of the most recent matching tweets). -/
theorem c9_buffer_bounded_fifo :
    (∀ (terms : List TermsConfig) (texts : List String) (g : String) (l : List NewTweet),
      bufGet (runTwitter terms texts) g = some l → l.length ≤ MAX_TWEETS_TO_SEND) ∧
    (∀ (b : TweetBuffers) (g : String) (t : NewTweet) (l : List NewTweet),
      bufGet b g = some l → l.length = MAX_TWEETS_TO_SEND →
      bufGet (pushTweetToBuffer b g t) g = some (l.drop 1 ++ [t])) := by
  constructor
  · intro terms texts g l h
    suffices hB : BufBounded (runTwitter terms texts) from hB g l h
    unfold runTwitter
    exact bufBounded_run terms texts [] (fun g' l' h' => by simp [bufGet] at h')
  · intro b g t l hb hlen
    unfold pushTweetToBuffer
    rw [hb]
    have : l.length ≥ MAX_TWEETS_TO_SEND := le_of_eq hlen.symm
    simp [this, bufGet_insert]

theorem c9_buffer_bounded_fifo_witness :
    bufGet (runTwitter [⟨"g", ["hello"]⟩] ["say hello world"]) "g" =
      some [⟨"g", "say hello world"⟩] ∧
    ([(⟨"g", "say hello world"⟩ : NewTweet)]).length ≤ MAX_TWEETS_TO_SEND ∧
    (bufGet [("g", List.replicate 100 (⟨"g", "x"⟩ : NewTweet))] "g" =
      some (List.replicate 100 (⟨"g", "x"⟩ : NewTweet)) ∧
    (List.replicate 100 (⟨"g", "x"⟩ : NewTweet)).length = MAX_TWEETS_TO_SEND ∧
    bufGet (pushTweetToBuffer [("g", List.replicate 100 (⟨"g", "x"⟩ : NewTweet))] "g"
        ⟨"g", "y"⟩) "g" =
      some ((List.replicate 100 (⟨"g", "x"⟩ : NewTweet)).drop 1 ++ [⟨"g", "y"⟩])) := by
  refine ⟨rfl, ?_, rfl, ?_, ?_⟩
  · exact c9_buffer_bounded_fifo.1 [⟨"g", ["hello"]⟩] ["say hello world"] "g" _ rfl
  · simp [MAX_TWEETS_TO_SEND]
  · exact c9_buffer_bounded_fifo.2 [("g", List.replicate 100 ⟨"g", "x"⟩)] "g" ⟨"g", "y"⟩ _
      rfl (by simp [MAX_TWEETS_TO_SEND])

/-- Claim C10.  When a drained event is suppressed, either because no rule
is configured for its event type or because its rule has an interval and
the key was last alerted within that interval, processing it leaves the
LAST_ALERTED map unchanged, performs no send and hands no email to the
port. -/
theorem c10_suppressed_event_frame (emailOk : String → String → Bool)
    (alerts : BroadcastEventType → Option AlertConfig)
    (la : LastAlerted) (a : Arrival)
    (h : alerts a.event.event_type = none ∨
      (∃ cfg d v, alerts a.event.event_type = some cfg ∧ cfg.alert_interval = some d ∧
        laGet la a.event.event_key = some v ∧ a.tCheck - v ≤ d)) :
    processArrival emailOk alerts la a = ⟨la, [], [], false⟩ := by
  rcases h with h | ⟨cfg, d, v, hcfg, hd, hv, hle⟩
  · simp [processArrival, h]
  · have hsn : sendNow cfg (some v) a.tCheck = false := by
      simp [sendNow, hd]
      omega
    simp [processArrival, hcfg, hv, hsn]

theorem c10_suppressed_event_frame_witness :
    ((fun (_ : BroadcastEventType) => (none : Option AlertConfig)) eW.event_type = none ∨
      (∃ cfg d v, (fun (_ : BroadcastEventType) => (none : Option AlertConfig)) eW.event_type
          = some cfg ∧ cfg.alert_interval = some d ∧
        laGet [("k", 2)] eW.event_key = some v ∧ (3 : Nat) - v ≤ d)) ∧
    processArrival (fun _ _ => true) (fun _ => none) [("k", 2)] ⟨eW, 3, 3, 3⟩ =
      ⟨[("k", 2)], [], [], false⟩ := by
  refine ⟨Or.inl rfl, ?_⟩
  exact c10_suppressed_event_frame (fun _ _ => true) (fun _ => none) [("k", 2)]
    ⟨eW, 3, 3, 3⟩ (Or.inl rfl)

end Pulse
